import Mathlib

/-!
Verification development for the Data API websocket handlers of the
arachnado crawl-monitoring dashboard (module arachnado/rpc/data.py).

The Python module is shallowly embedded here:

* Python runtime values that flow through the handlers (event payloads,
  dict entries, query documents) are modelled by the inductive type Json
  together with executable helpers mirroring the Python operations the
  source uses on them (truthiness, len, subscript, dict get/set, set add).
* A handler instance is modelled by the structure HandlerState.  Its
  fields correspond one-to-one to the attributes the source reads and
  writes: storages, stored_data, delay_mode, data_hb, mongo_id_mapping,
  job_url_mapping.  Two observation logs are added: sent records every
  (event, data) pair passed to the _send_event outbound gate, and
  closed_links records every storage wrapper whose _on_close was invoked.
* Methods become Lean functions from a state to a new state.  A method
  that can raise an uncaught Python exception returns an Option, with
  none standing for the raised exception.
* The class-attribute aliasing of the source (storages and the other
  dicts are declared at class scope, hence shared by every instance) is
  modelled separately and explicitly by SharedClassAttrs below; the
  per-state functions describe the behaviour of one session in isolation.
-/

namespace Arachnado

/-! ## Python value model -/

mutual
/-- A Python value as used by the data handlers: None, bool, int, str,
list and dict (with string keys, the only key shape the source builds
query documents and event payloads from). -/
inductive Json where
  | null
  | jbool (b : Bool)
  | num (n : Int)
  | str (s : String)
  | arr (items : JsonList)
  | obj (fields : JsonFields)
/-- A Python list of values. -/
inductive JsonList where
  | nil
  | cons (hd : Json) (tl : JsonList)
/-- The entries of a Python dict with string keys, in insertion order. -/
inductive JsonFields where
  | nil
  | cons (key : String) (val : Json) (tl : JsonFields)
end

mutual
/-- Python equality (the == used by dict key lookup and set membership)
on the modelled values. -/
def jsonBeq : Json → Json → Bool
  | .null, .null => true
  | .jbool a, .jbool b => a == b
  | .num a, .num b => a == b
  | .str a, .str b => a == b
  | .arr a, .arr b => jlBeq a b
  | .obj a, .obj b => jfBeq a b
  | _, _ => false
/-- Pointwise Python equality on lists. -/
def jlBeq : JsonList → JsonList → Bool
  | .nil, .nil => true
  | .cons a ta, .cons b tb => jsonBeq a b && jlBeq ta tb
  | _, _ => false
/-- Entrywise Python equality on dict entries. -/
def jfBeq : JsonFields → JsonFields → Bool
  | .nil, .nil => true
  | .cons ka va ta, .cons kb vb tb => ka == kb && jsonBeq va vb && jfBeq ta tb
  | _, _ => false
end

mutual
theorem jsonBeq_refl : ∀ j : Json, jsonBeq j j = true
  | .null => rfl
  | .jbool a => by simp [jsonBeq]
  | .num a => by simp [jsonBeq]
  | .str a => by simp [jsonBeq]
  | .arr a => by simp [jsonBeq, jlBeq_refl a]
  | .obj a => by simp [jsonBeq, jfBeq_refl a]
theorem jlBeq_refl : ∀ l : JsonList, jlBeq l l = true
  | .nil => rfl
  | .cons a ta => by simp [jlBeq, jsonBeq_refl a, jlBeq_refl ta]
theorem jfBeq_refl : ∀ l : JsonFields, jfBeq l l = true
  | .nil => rfl
  | .cons k v t => by simp [jfBeq, jsonBeq_refl v, jfBeq_refl t]
end

/-- Python truthiness of a value, as used by the source in conditions
such as `if job_id:` and `if site_ids[site]:`. -/
def jsonTruthy : Json → Bool
  | .null => false
  | .jbool b => b
  | .num n => n != 0
  | .str s => s ≠ ""
  | .arr .nil => false
  | .arr (.cons _ _) => true
  | .obj .nil => false
  | .obj (.cons _ _ _) => true

/-- Length of a Python list value. -/
def jlLen : JsonList → Nat
  | .nil => 0
  | .cons _ tl => jlLen tl + 1

/-- Zero-based indexing of a Python list value. -/
def jlGet : JsonList → Nat → Option Json
  | .nil, _ => none
  | .cons j _, 0 => some j
  | .cons _ tl, n + 1 => jlGet tl n

/-- Number of entries of a dict value. -/
def jfLen : JsonFields → Nat
  | .nil => 0
  | .cons _ _ tl => jfLen tl + 1

/-- Python `d[k]` on a string-keyed dict: the value stored at key k. -/
def jfLookup : JsonFields → String → Option Json
  | .nil, _ => none
  | .cons k v tl, key => if k = key then some v else jfLookup tl key

/-- Python `k in d` on a string-keyed dict. -/
def jfHasKey (fs : JsonFields) (key : String) : Bool :=
  (jfLookup fs key).isSome

/-- Python `d.get(k, default)` on a string-keyed dict. -/
def jfGetD (fs : JsonFields) (key : String) (default : Json) : Json :=
  (jfLookup fs key).getD default

/-- Python `d[k] = v` on a string-keyed dict: replace in place when the
key is present, append a new entry otherwise. -/
def jfSet : JsonFields → String → Json → JsonFields
  | .nil, key, v => .cons key v .nil
  | .cons k v0 tl, key, v =>
      if k = key then .cons k v tl else .cons k v0 (jfSet tl key v)

/-- Membership of a Python list value, by Python equality. -/
def jlMem : JsonList → Json → Bool
  | .nil, _ => false
  | .cons a tl, x => jsonBeq a x || jlMem tl x

/-! ### Lean-level association lists standing for Python dicts

The handler state keeps two kinds of dicts: string-keyed (storages) and
keyed by arbitrary payload values (the two id-reconciliation tables,
keyed by the crawl id taken from an event payload).  Both follow Python
dict semantics: a write to an existing key replaces in place, a write to
a fresh key appends. -/

/-- Lookup in a string-keyed dict. -/
def dictLookup {α : Type} : List (String × α) → String → Option α
  | [], _ => none
  | (k, v) :: tl, key => if k = key then some v else dictLookup tl key

/-- Write to a string-keyed dict (replace in place or append). -/
def dictSet {α : Type} : List (String × α) → String → α → List (String × α)
  | [], key, v => [(key, v)]
  | (k, v0) :: tl, key, v =>
      if k = key then (key, v) :: tl else (k, v0) :: dictSet tl key v

/-- Removal from a string-keyed dict (the effect of `d.pop(k, None)`
on the dict when the key is present; identity when it is absent). -/
def dictRemove {α : Type} : List (String × α) → String → List (String × α)
  | [], _ => []
  | (k, v0) :: tl, key =>
      if k = key then tl else (k, v0) :: dictRemove tl key

/-- Lookup in a dict keyed by Python values, using Python equality. -/
def jdictLookup : List (Json × Json) → Json → Option Json
  | [], _ => none
  | (k, v) :: tl, key => if jsonBeq k key then some v else jdictLookup tl key

/-- Write to a dict keyed by Python values. -/
def jdictSet : List (Json × Json) → Json → Json → List (Json × Json)
  | [], key, v => [(key, v)]
  | (k, v0) :: tl, key, v =>
      if jsonBeq k key then (key, v) :: tl else (k, v0) :: jdictSet tl key v

/-- Python `d.get(k, default)` on a value-keyed dict. -/
def jdictGetD (d : List (Json × Json)) (key : Json) (default : Json) : Json :=
  (jdictLookup d key).getD default

/-- Python `set.add` on a set of values held as a duplicate-free list in
insertion order. -/
def jsetAdd (s : List Json) (x : Json) : List Json :=
  if s.any (fun a => jsonBeq a x) then s else s ++ [x]

/-! ## Python str of a natural number

The source computes subscription ids as `str(len(self.storages))`.
The Python builtin str on a non-negative int renders its decimal
digits; pyStr models it with an executable structural recursion
(fuel-based so that it evaluates inside the kernel). -/

/-- Decimal digit characters of n, most significant first; fuel bounds
the recursion and any fuel at least n is enough. -/
def pyDigits : Nat → Nat → List Char
  | 0, _ => []
  | _, 0 => []
  | fuel + 1, n + 1 =>
      pyDigits fuel ((n + 1) / 10) ++ [Nat.digitChar ((n + 1) % 10)]

/-- Python `str(n)` for a natural number n. -/
def pyStr (n : Nat) : String :=
  if n = 0 then "0" else String.mk (pyDigits n n)

/-- Reads a digit-character list back as a number; left inverse used to
prove pyStr injective. -/
def digitsVal (l : List Char) : Nat :=
  l.foldl (fun acc c => acc * 10 + (c.toNat - '0'.toNat)) 0

theorem digitsVal_append (l : List Char) (c : Char) :
    digitsVal (l ++ [c]) = digitsVal l * 10 + (c.toNat - '0'.toNat) := by
  simp [digitsVal, List.foldl_append]

theorem digitChar_val (d : Nat) (hd : d < 10) :
    (Nat.digitChar d).toNat - '0'.toNat = d := by
  revert hd
  revert d
  decide

theorem digitsVal_pyDigits : ∀ fuel n, n ≤ fuel → digitsVal (pyDigits fuel n) = n := by
  intro fuel
  induction fuel with
  | zero =>
      intro n hn
      interval_cases n
      simp [pyDigits, digitsVal]
  | succ fuel ih =>
      intro n hn
      match n with
      | 0 => simp [pyDigits, digitsVal]
      | m + 1 =>
          have hdiv : (m + 1) / 10 ≤ fuel := by
            have h1 : (m + 1) / 10 < m + 1 := Nat.div_lt_self (Nat.succ_pos m) (by omega)
            omega
          have hmod : (m + 1) % 10 < 10 := Nat.mod_lt _ (by omega)
          calc digitsVal (pyDigits (fuel + 1) (m + 1))
              = digitsVal (pyDigits fuel ((m + 1) / 10) ++ [Nat.digitChar ((m + 1) % 10)]) := rfl
            _ = digitsVal (pyDigits fuel ((m + 1) / 10)) * 10 + ((Nat.digitChar ((m + 1) % 10)).toNat - '0'.toNat) := digitsVal_append ..
            _ = (m + 1) / 10 * 10 + (m + 1) % 10 := by rw [ih _ hdiv, digitChar_val _ hmod]
            _ = m + 1 := by omega

theorem pyStr_injective : Function.Injective pyStr := by
  intro m n h
  by_cases hm : m = 0 <;> by_cases hn : n = 0
  · omega
  · exfalso
    simp only [pyStr, hm, hn, if_true, if_false, if_neg hn] at h
    have : pyDigits n n = ['0'] := by
      have := congrArg String.data h
      simpa using this.symm
    have hv := digitsVal_pyDigits n n le_rfl
    rw [this] at hv
    simp [digitsVal] at hv
    omega
  · exfalso
    simp only [pyStr, hm, hn, if_false, if_neg hm] at h
    have : pyDigits m m = ['0'] := by
      have := congrArg String.data h
      simpa using this
    have hv := digitsVal_pyDigits m m le_rfl
    rw [this] at hv
    simp [digitsVal] at hv
    omega
  · simp only [pyStr, if_neg hm, if_neg hn] at h
    have hdat : pyDigits m m = pyDigits n n := by
      have := congrArg String.data h
      simpa using this
    have h1 := digitsVal_pyDigits m m le_rfl
    have h2 := digitsVal_pyDigits n n le_rfl
    rw [hdat] at h1
    omega

/-! ## Query builder, jobs feed (create_jobs_query)

The source builds one regex condition per include string
(`.*s.*`, matching a URL field containing s) and one per exclude
string (`^((?!s).)*$`, matching a URL field not containing s), puts
both groups into one list `conditions`, and wraps: zero conditions
give the empty query document, one condition stands on its own, and
two or more are joined under a single top-level and-operator. -/

/-- One regex condition against a named field, as built by
create_jobs_query: a containment pattern or its negated-lookahead
complement. -/
inductive MongoCond where
  | regexContains (field : String) (s : String)
  | regexNotContains (field : String) (s : String)
deriving DecidableEq

/-- The shapes of query document create_jobs_query can return: the empty
document, a single condition, or an and-list of two or more
conditions. -/
inductive JobsQuery where
  | empty
  | single (c : MongoCond)
  | andN (cs : List MongoCond)
deriving DecidableEq

/-- Does the first character list start the second. -/
def chStarts : List Char → List Char → Bool
  | [], _ => true
  | _ :: _, [] => false
  | a :: as, b :: bs => a == b && chStarts as bs

/-- Does the first character list occur inside the second. -/
def chOccurs (needle : List Char) : List Char → Bool
  | [] => chStarts needle []
  | c :: tl => chStarts needle (c :: tl) || chOccurs needle tl

/-- Substring test: does needle occur inside hay.  Used as the meaning
of the regex patterns the source builds (for a pattern string free of
regex metacharacters, an unanchored search for `.*s.*` succeeds on
exactly the strings containing s, and a full match of `^((?!s).)*$`
succeeds on exactly the strings not containing a nonempty s). -/
def strContains (hay needle : String) : Bool :=
  chOccurs needle.toList hay.toList

/-- Meaning of one condition on a document whose queried field holds the
string u. -/
def condMatches (u : String) : MongoCond → Bool
  | .regexContains _ s => strContains u s
  | .regexNotContains _ s => !strContains u s

/-- Meaning of a jobs query document on a document whose URL field holds
the string u.  The empty document matches everything; an and-list
requires every condition. -/
def jobsQueryMatches (q : JobsQuery) (u : String) : Bool :=
  match q with
  | .empty => true
  | .single c => condMatches u c
  | .andN cs => cs.all (condMatches u)

/-- The condition list built by the two loops of create_jobs_query:
include conditions first, then exclude conditions. -/
def jobsConditions (incl excl : List String) : List MongoCond :=
  incl.map (MongoCond.regexContains "urls") ++
    excl.map (MongoCond.regexNotContains "urls")

/-- JobsDataRpcWebsocketHandler.create_jobs_query: wrap the condition
list exactly as the source does (unwrap a singleton, and-join two or
more, empty query for none). -/
def create_jobs_query (incl excl : List String) : JobsQuery :=
  match jobsConditions incl excl with
  | [] => .empty
  | [c] => .single c
  | c1 :: c2 :: cs => .andN (c1 :: c2 :: cs)

/-- The predicate the claim ascribes to create_jobs_query: at least one
include substring occurs (or no includes were given) and no exclude
substring occurs. -/
def claimedJobsPred (incl excl : List String) (u : String) : Bool :=
  (incl.isEmpty || incl.any (strContains u)) &&
    excl.all (fun s => !strContains u s)

/-! ## Query builder, pages feed (create_pages_query) -/

/-- One per-site condition as built by create_pages_query: either the
URL-only regex `site.*` against a URL field, or that regex conjoined
with a strict lower bound on the persistent store id. -/
inductive SiteCond where
  | urlOnly (field : String) (site : String)
  | urlAndId (field : String) (site : String) (oid : String)
deriving DecidableEq

/-- The shapes of query document create_pages_query can return: the
empty document, a single site condition, or an or-list of two or more
site conditions. -/
inductive PagesQuery where
  | empty
  | single (c : SiteCond)
  | orN (cs : List SiteCond)
deriving DecidableEq

/-- Hexadecimal digit test, as accepted by the persistent-store
ObjectId constructor. -/
def isHexCh (c : Char) : Bool :=
  c.isDigit || ('a' ≤ c && c ≤ 'f') || ('A' ≤ c && c ≤ 'F')

/-- Validity of a string as a persistent-store ObjectId: twenty-four
hexadecimal characters.  ObjectId(s) raises InvalidId on any other
string, which the source catches. -/
def isValidObjectId (s : String) : Bool :=
  s.toList.length == 24 && s.toList.all isHexCh

/-- The loop body of create_pages_query for one site entry, on the
modelled value shapes.  Mirrors the source: a falsy filter value takes
the url_only path with the default field name; otherwise the source
asks `"url_field" in site_ids[site]`, which on a dict value is key
membership (taking the dict's field name and its id entry) but on a
string value is a substring test: a string cursor containing
url_field is then subscripted (`site_ids[site]["url_field"]`), which
raises an uncaught TypeError, modelled as none.  A string cursor not
containing url_field is the id itself; a valid id yields the
and-condition, an InvalidId fallback yields the URL-only condition
with the field name chosen before the try block.  A truthy value of
any other shape makes the membership test or ObjectId raise an
uncaught TypeError, again none (as does a dict value without an id
entry, where the subscript raises KeyError, and a non-string
url_field, a shape outside this model). -/
def pagesSiteCond (site : String) (v : Json) : Option SiteCond :=
  if jsonTruthy v then
    match v with
    | Json.obj fs =>
        if jfHasKey fs "url_field" then
          match jfLookup fs "url_field", jfLookup fs "id" with
          | some (Json.str f), some (Json.str i) =>
              some (if isValidObjectId i then .urlAndId f site i else .urlOnly f site)
          | _, _ => none
        else none
    | Json.str i =>
        if strContains i "url_field" then none
        else some (if isValidObjectId i then .urlAndId "url" site i else .urlOnly "url" site)
    | _ => none
  else some (.urlOnly "url" site)

/-- The condition list accumulated by the loop of create_pages_query,
failing (none) as soon as one site entry raises. -/
def pagesConditions : JsonFields → Option (List SiteCond)
  | .nil => some []
  | .cons site v rest =>
      match pagesSiteCond site v with
      | none => none
      | some c =>
          match pagesConditions rest with
          | none => none
          | some cs => some (c :: cs)

/-- Wrapping of the condition list done at the end of
create_pages_query: unwrap a singleton, or-join two or more, empty
query for none. -/
def combinePages : List SiteCond → PagesQuery
  | [] => .empty
  | [c] => .single c
  | c1 :: c2 :: cs => .orN (c1 :: c2 :: cs)

/-- PagesDataRpcWebsocketHandler.create_pages_query on an arbitrary
site_ids value.  A falsy site_ids skips the loop and yields the empty
query; a truthy dict is folded sitewise; a truthy value of any other
shape raises (iterating it or subscripting it fails), modelled as
none. -/
def create_pages_query (site_ids : Json) : Option PagesQuery :=
  if jsonTruthy site_ids then
    match site_ids with
    | Json.obj fs => (pagesConditions fs).map combinePages
    | _ => none
  else some PagesQuery.empty

/-! Spec-side description of the pages query, stated over structured
site filters, to be compared with create_pages_query by refinement. -/

/-- A structured per-site filter value as the claim describes them: no
filter value at all, a plain cursor-id string, or a dict naming the
URL field and the cursor id. -/
inductive SiteVal where
  | nullv
  | idv (s : String)
  | fieldv (url_field : String) (id0 : String)
deriving DecidableEq

/-- Rendering of a structured site filter as the Python value the
handler receives. -/
def siteValJson : SiteVal → Json
  | .nullv => Json.null
  | .idv s => Json.str s
  | .fieldv f i =>
      Json.obj (.cons "url_field" (Json.str f) (.cons "id" (Json.str i) .nil))

/-- Rendering of a structured site_ids mapping as a Python dict. -/
def sitesJson : List (String × SiteVal) → JsonFields
  | [] => .nil
  | (site, v) :: rest => .cons site (siteValJson v) (sitesJson rest)

/-- What the claim asks of one site: the URL regex intersected with the
cursor bound when the cursor parses as a valid ObjectId, and the
URL-only condition when parsing fails or no filter value was given. -/
def specSiteCond (site : String) : SiteVal → SiteCond
  | .nullv => .urlOnly "url" site
  | .idv s => if isValidObjectId s then .urlAndId "url" site s else .urlOnly "url" site
  | .fieldv f i => if isValidObjectId i then .urlAndId f site i else .urlOnly f site

/-- The pages query the claim describes: per-site conditions combined
by or, a single one unwrapped, none at all the match-everything
query. -/
def specPagesQuery (sites : List (String × SiteVal)) : PagesQuery :=
  combinePages (sites.map (fun p => specSiteCond p.1 p.2))

/-! ## Outbound gate (_send_event) and its serialization

The source serializes the envelope with json_encode from
arachnado.utils.misc, a helper outside the shown source. -/

mutual
/-- Modelled from the spec: the serialization of the outbound envelope
performed by the send gate (the json_encode helper of
arachnado.utils.misc is not part of the shown source).  A standard
compact JSON rendering; string escaping is not reproduced, only the
length of the rendering matters to the handlers. -/
def jsonEncode : Json → String
  | .null => "null"
  | .jbool true => "true"
  | .jbool false => "false"
  | .num n => toString n
  | .str s => "\"" ++ s ++ "\""
  | .arr l => "[" ++ encList l ++ "]"
  | .obj fs => "\x7b" ++ encFields fs ++ "\x7d"
/-- Comma-joined rendering of the elements of a list value. -/
def encList : JsonList → String
  | .nil => ""
  | .cons j .nil => jsonEncode j
  | .cons j tl => jsonEncode j ++ ", " ++ encList tl
/-- Comma-joined rendering of the entries of a dict value. -/
def encFields : JsonFields → String
  | .nil => ""
  | .cons k v .nil => "\"" ++ k ++ "\": " ++ jsonEncode v
  | .cons k v tl => "\"" ++ k ++ "\": " ++ jsonEncode v ++ ", " ++ encFields tl
end

/-- The serialized form of the envelope built by _send_event:
the dict with keys event and data. -/
def encodeEnvelope (event : String) (data : Json) : String :=
  jsonEncode (Json.obj (.cons "event" (Json.str event) (.cons "data" data .nil)))

/-- The per-message size cap of DataRpcWebsocketHandler (class
attribute max_msg_size, one mebibyte). -/
def max_msg_size : Nat := 2 ^ 20

/-- DataRpcWebsocketHandler._send_event acting on the transport log:
serialize the envelope, deliver it when strictly below the cap, drop
it silently otherwise. -/
def sendEventT (log : List String) (event : String) (data : Json) : List String :=
  let message := encodeEnvelope event data
  if message.length < max_msg_size then log ++ [message] else log

/-- The transport log produced by a sequence of _send_event calls
starting from a given log. -/
def runSends (log : List String) : List (String × Json) → List String
  | [] => log
  | (e, d) :: rest => runSends (sendEventT log e d) rest

/-- The transport log produced by a sequence of _send_event calls on a
fresh connection. -/
def transportLog (sends : List (String × Json)) : List String :=
  runSends [] sends

/-! ## Handler state

One live connection of a Data API handler.  The type parameter is the
query-document type the handler subscribes its storage links with
(JobsQuery for the jobs feed, PagesQuery for the pages feed).

The sent field logs every (event, data) pair the handler passes to the
_send_event gate (delivery then being subject to the size cap above);
stored_data is the outbound batching queue; closed_links logs every
subscription id whose storage link received _on_close; subscribed logs
every (subscription id, query) pair passed to a storage link's
subscribe. -/
structure HandlerState (α : Type) where
  storages : List (String × List Json)
  stored_data : List (String × Json)
  delay_mode : Bool
  data_hb : Option Int
  mongo_id_mapping : List (Json × Json)
  job_url_mapping : List (Json × Json)
  sent : List (String × Json)
  closed_links : List String
  subscribed : List (String × α)

/-- The state of a handler as its connection opens: every dict and
queue empty, delay mode off, no heartbeat. -/
def freshState (α : Type) : HandlerState α :=
  ⟨[], [], false, none, [], [], [], [], []⟩

/-- DataRpcWebsocketHandler.init_hb: on a positive update delay, when
no heartbeat exists yet, enter delay mode and start the periodic
callback (held as its interval); otherwise do nothing. -/
def init_hb {α : Type} (st : HandlerState α) (update_delay : Int) : HandlerState α :=
  if 0 < update_delay ∧ st.data_hb = none then
    { st with delay_mode := true, data_hb := some update_delay }
  else st

/-- DataRpcWebsocketHandler.add_storage_wrapper: the new subscription
id is str of the current number of storages; the wrapper is stored
under it with an empty visible-id set, and subscribe(query) is issued
on the wrapper.  Returns the new id. -/
def add_storage_wrapper {α : Type} (st : HandlerState α) (mongo_q : α) :
    String × HandlerState α :=
  let new_id := pyStr st.storages.length
  (new_id,
    { st with
      storages := dictSet st.storages new_id [],
      subscribed := st.subscribed ++ [(new_id, mongo_q)] })

/-- DataRpcWebsocketHandler.cancel_subscription: pop the subscription;
when it was present, signal _on_close on its storage link and answer
true, otherwise answer false and change nothing. -/
def cancel_subscription {α : Type} (st : HandlerState α) (sid : String) :
    Bool × HandlerState α :=
  match dictLookup st.storages sid with
  | some _ =>
      (true,
        { st with
          storages := dictRemove st.storages sid,
          closed_links := st.closed_links ++ [sid] })
  | none => (false, st)

/-- DataRpcWebsocketHandler.send_updates: the loop pops the oldest
queued event and immediately returns the result of sending it, so one
heartbeat firing forwards at most the single oldest queued event; an
empty queue does nothing. -/
def send_updates {α : Type} (st : HandlerState α) : HandlerState α :=
  match st.stored_data with
  | [] => st
  | item :: rest => { st with stored_data := rest, sent := st.sent ++ [item] }

/-- k consecutive heartbeat firings. -/
def fireN {α : Type} (st : HandlerState α) : Nat → HandlerState α
  | 0 => st
  | k + 1 => fireN (send_updates st) k

/-! ## Jobs feed event router (JobsDataRpcWebsocketHandler.write_event)

The method is modelled as a pipeline of the four steps the source
performs, each a function below; an uncaught Python exception is
modelled as none. -/

/-- The handler state of the jobs feed. -/
def JobsState : Type := HandlerState JobsQuery

/-- The subscribable event set of the jobs feed (class attribute
event_types). -/
def jobs_event_types : List String := ["stats:changed"]

/-- Step one of write_event: on a jobs.tailed event whose payload is a
dict carrying an id, arriving with a truthy handler id, add the crawl
id to that subscription's visible-id set and record the payload's
mongo id and urls into the two reconciliation tables (a dict write,
replacing any earlier recording for the same crawl id).  An unknown
handler id raises KeyError (none).  Payloads of other shapes are
modelled as not carrying the id key. -/
def tailed_step (st : JobsState) (event : String) (data : Json)
    (handler_id : Option String) : Option JobsState :=
  if event = "jobs.tailed" then
    match data, handler_id with
    | Json.obj fs, some h =>
        if jfHasKey fs "id" ∧ h ≠ "" then
          match jfLookup fs "id" with
          | some i =>
              match dictLookup st.storages h with
              | some ids =>
                  some { st with
                    storages := dictSet st.storages h (jsetAdd ids i),
                    mongo_id_mapping :=
                      jdictSet st.mongo_id_mapping i (jfGetD fs "_id" Json.null),
                    job_url_mapping :=
                      jdictSet st.job_url_mapping i (jfGetD fs "urls" Json.null) }
              | none => none
          | none => some st
        else some st
    | _, _ => some st
  else some st

/-- The enriched payload built for a stats:changed event: the stats
value duplicated under stats and stats_dict, the crawl id under id,
the recorded mongo id under _id and the recorded urls under urls, both
defaulting to the empty string. -/
def enrichFields (st : JobsState) (crawl_id stats : Json) : JsonFields :=
  .cons "stats" stats (.cons "stats_dict" stats (.cons "id" crawl_id
    (.cons "_id" (jdictGetD st.mongo_id_mapping crawl_id (Json.str ""))
      (.cons "urls" (jdictGetD st.job_url_mapping crawl_id (Json.str "")) .nil))))

/-- The enriched payload as a value. -/
def enrich (st : JobsState) (crawl_id stats : Json) : Json :=
  Json.obj (enrichFields st crawl_id stats)

/-- Step two of write_event for the two gated events: extract the
subject crawl id and the (possibly rewritten) payload.  For
stats:changed the payload must have length above one to be read
positionally, and is rewritten by enrich; a too-short payload leaves
the subject unset (dropping the event later).  For jobs:state the
subject is the payload's id entry, whose absence raises KeyError.
Reading positions out of a dict raises KeyError and taking len of a
non-sized value raises TypeError; a string payload is indexed
characterwise as Python does. -/
def subject_and_payload (st : JobsState) (event : String) (data : Json) :
    Option (Option Json × Json) :=
  if event = "stats:changed" then
    match data with
    | Json.arr l =>
        if 1 < jlLen l then
          match jlGet l 0, jlGet l 1 with
          | some j0, some j1 => some (some j0, enrich st j0 j1)
          | _, _ => none
        else some (none, data)
    | Json.str s =>
        (match s.toList with
        | c0 :: c1 :: _ =>
            some (some (Json.str (String.mk [c0])),
              enrich st (Json.str (String.mk [c0])) (Json.str (String.mk [c1])))
        | _ => some (none, data))
    | Json.obj fs => if 1 < jfLen fs then none else some (none, data)
    | _ => none
  else
    match data with
    | Json.obj fs =>
        (match jfLookup fs "id" with
        | some j => some (some j, data)
        | none => none)
    | _ => none

/-- The visibility check of write_event: a set subject that is truthy
and belongs to the visible-id set of at least one active
subscription. -/
def job_allowed (st : JobsState) (job_id : Option Json) : Bool :=
  match job_id with
  | some j => jsonTruthy j && st.storages.any (fun p => p.2.any (fun x => jsonBeq x j))
  | none => false

/-- Step three of write_event: when the payload is a dict carrying a
stats entry that is not itself a dict, try to parse it with
json.loads (passed in as loads, total on strings; any non-string
argument raises inside the try and is swallowed), replacing the entry
on success and leaving it raw on failure.  On a list or string
payload the containment test may hit the unguarded subscript and
raise TypeError (none); taking containment on an unsized value raises
TypeError as well. -/
def stats_fix (loads : String → Option Json) (ed : Json) : Option Json :=
  match ed with
  | Json.obj fs =>
      (match jfLookup fs "stats" with
      | some sv =>
          (match sv with
          | Json.obj _ => some ed
          | Json.str s =>
              (match loads s with
              | some v => some (Json.obj (jfSet fs "stats" v))
              | none => some ed)
          | _ => some ed)
      | none => some ed)
  | Json.arr l => if jlMem l (Json.str "stats") then none else some ed
  | Json.str s => if strContains s "stats" then none else some ed
  | _ => none

/-- Step four of write_event: a subscribable event in delay mode is
appended to the outbound queue; anything else goes to the _send_event
gate at once. -/
def dispatch (st : JobsState) (event : String) (ed : Json) : JobsState :=
  if jobs_event_types.contains event ∧ st.delay_mode then
    { st with stored_data := st.stored_data ++ [(event, ed)] }
  else
    { st with sent := st.sent ++ [(event, ed)] }

/-- JobsDataRpcWebsocketHandler.write_event: tailed bookkeeping, then
for the two gated events the visibility check (dropping the event
entirely when no subscription may see it), then the stats fixup and
the queue-or-send dispatch. -/
def write_event (loads : String → Option Json) (st : JobsState) (event : String)
    (data : Json) (handler_id : Option String) : Option JobsState :=
  match tailed_step st event data handler_id with
  | none => none
  | some st1 =>
      if event = "stats:changed" ∨ event = "jobs:state" then
        match subject_and_payload st1 event data with
        | none => none
        | some (job_id, ed) =>
            if job_allowed st1 job_id then
              match stats_fix loads ed with
              | none => none
              | some ed2 => some (dispatch st1 event ed2)
            else some st1
      else
        match stats_fix loads data with
        | none => none
        | some ed2 => some (dispatch st1 event ed2)

/-- A sequence of write_event invocations, stopping at the first
uncaught exception. -/
def run_events (loads : String → Option Json) (st : JobsState) :
    List (String × Json × Option String) → Option JobsState
  | [] => some st
  | (e, d, h) :: rest =>
      match write_event loads st e d h with
      | some st1 => run_events loads st1 rest
      | none => none

/-- The events a single step emitted, read off two states: whatever was
appended to the outbound queue followed by whatever was passed to the
_send_event gate. -/
def outEvents (st st' : JobsState) : List (String × Json) :=
  st'.stored_data.drop st.stored_data.length ++ st'.sent.drop st.sent.length

/-! ## Pages feed (PagesDataRpcWebsocketHandler) -/

/-- The handler state of the pages feed. -/
def PagesState : Type := HandlerState PagesQuery

/-- The subscribable event set of the pages feed. -/
def pages_event_types : List String := ["pages.tailed"]

/-- PagesDataRpcWebsocketHandler.write_event: a subscribable event in
delay mode is queued, anything else is sent at once. -/
def write_event_pages (st : PagesState) (event : String) (data : Json) : PagesState :=
  if pages_event_types.contains event ∧ st.delay_mode then
    { st with stored_data := st.stored_data ++ [(event, data)] }
  else
    { st with sent := st.sent ++ [(event, data)] }

/-- The result dict of subscribe_to_pages. -/
structure PagesResult where
  datatype : String
  single_subscription_id : String
  id : List (String × String)
deriving DecidableEq

/-- The loop of the ids mode of subscribe_to_pages: one storage link
per site, each subscribed with the query built from that site's value
alone, accumulating site to subscription-id; a failing query build
propagates the exception. -/
def pagesIdsLoop (st : PagesState) : JsonFields → List (String × String) →
    Option (List (String × String) × PagesState)
  | .nil, acc => some (acc, st)
  | .cons site v rest, acc =>
      match create_pages_query v with
      | none => none
      | some q =>
          let r := add_storage_wrapper st q
          pagesIdsLoop r.2 rest (acc ++ [(site, r.1)])

/-- PagesDataRpcWebsocketHandler.subscribe_to_pages: configure the
heartbeat first; in urls mode one subscription covers the whole
site_ids mapping, in ids mode one subscription is created per site,
and any other mode creates nothing and returns the empty result.  An
ids-mode call on a payload that cannot be iterated as a dict raises
(an empty list iterates vacuously). -/
def subscribe_to_pages (st : PagesState) (site_ids : Json) (update_delay : Int)
    (mode : String) : Option (PagesResult × PagesState) :=
  let st1 := init_hb st update_delay
  if mode = "urls" then
    match create_pages_query site_ids with
    | none => none
    | some q =>
        let r := add_storage_wrapper st1 q
        some ({ datatype := "pages_subscription_id",
                single_subscription_id := r.1, id := [] }, r.2)
  else if mode = "ids" then
    match site_ids with
    | Json.obj fs =>
        (match pagesIdsLoop st1 fs [] with
        | none => none
        | some (res, st2) =>
            some ({ datatype := "pages_subscription_id",
                    single_subscription_id := "", id := res }, st2))
    | Json.arr .nil =>
        some ({ datatype := "pages_subscription_id",
                single_subscription_id := "", id := [] }, st1)
    | _ => none
  else
    some ({ datatype := "pages_subscription_id",
            single_subscription_id := "", id := [] }, st1)

/-- JobsDataRpcWebsocketHandler.subscribe_to_jobs: build the jobs
query, configure the heartbeat, register a fresh jobs storage link and
return its subscription id. -/
def subscribe_to_jobs (st : JobsState) (incl excl : List String)
    (update_delay : Int) : String × JobsState :=
  let q := create_jobs_query incl excl
  let st1 := init_hb st update_delay
  add_storage_wrapper st1 q

/-! ## Register and cancel traces (subscription id assignment) -/

/-- One registry operation of a session: registering one more
subscription or cancelling one by id. -/
inductive RegOp where
  | add
  | cancel (sid : String)
deriving DecidableEq

/-- A sequence of registry operations, returning the final state and
the list of every subscription id assigned along the way (registered
subscriptions all use the same query document, which the id
assignment never reads). -/
def runOps (st : JobsState) (assigned : List String) :
    List RegOp → JobsState × List String
  | [] => (st, assigned)
  | RegOp.add :: rest =>
      let r := add_storage_wrapper st JobsQuery.empty
      runOps r.2 (assigned ++ [r.1]) rest
  | RegOp.cancel sid :: rest =>
      runOps (cancel_subscription st sid).2 assigned rest

/-! ## Class-attribute sharing across sessions

In the source, storages, stored_data, mongo_id_mapping and
job_url_mapping are declared at class scope (DataRpcWebsocketHandler
lines 23 to 31 and JobsDataRpcWebsocketHandler lines 100 to 101), and
the methods only ever mutate them in place (subscript assignment,
set add, pop, append), never rebind them on self.  By Python attribute
resolution every instance therefore reads and mutates the same
class-level objects.  SharedClassAttrs is that class-level state; an
instance carries only the attributes the source does rebind on self
and so contributes nothing to the resolution of the four shared
dicts. -/
structure SharedClassAttrs where
  storages : List (String × List Json)
  stored_data : List (String × Json)
  mongo_id_mapping : List (Json × Json)
  job_url_mapping : List (Json × Json)

/-- The attributes the source does rebind on self (init_hb assigns
delay_mode and data_hb), the only truly per-instance state of a
session. -/
structure SessionInstanceAttrs where
  delay_mode : Bool
  data_hb : Option Int
deriving DecidableEq

/-- add_storage_wrapper as executed by one given instance: the
attribute resolution of self.storages never finds an instance
attribute (no method rebinds it on self), so the write lands in the
shared class state and the executing instance is not consulted at
all. -/
def add_storage_wrapper_shared (cls : SharedClassAttrs) (_inst : SessionInstanceAttrs) :
    String × SharedClassAttrs :=
  let new_id := pyStr cls.storages.length
  (new_id, { cls with storages := dictSet cls.storages new_id [] })

/-- cancel_subscription as executed by one given instance: the pop
acts on the same shared class-level dict, whichever session runs the
call. -/
def cancel_subscription_shared (cls : SharedClassAttrs) (_inst : SessionInstanceAttrs)
    (sid : String) : Bool × SharedClassAttrs :=
  match dictLookup cls.storages sid with
  | some _ => (true, { cls with storages := dictRemove cls.storages sid })
  | none => (false, cls)

/-! ## Concrete example inputs used by witnesses and counterexamples -/

/-- A json.loads stand-in that never parses (the handlers treat any
parse failure as a caught exception, leaving the field raw). -/
def loads0 : String → Option Json := fun _ => none

/-- A jobs session holding one subscription, id 0, whose visible-id set
contains the crawl id J. -/
def stVisible : JobsState :=
  { freshState JobsQuery with storages := [("0", [Json.str "J"])] }

/-- A jobs session holding one subscription, id 0, with an empty
visible-id set. -/
def stBlind : JobsState :=
  { freshState JobsQuery with storages := [("0", [])] }

/-- A jobs session in delay mode holding one subscription that may see
crawl id J. -/
def stVisibleDelay : JobsState :=
  { stVisible with delay_mode := true, data_hb := some 7 }

/-- A session whose outbound queue holds two pending events. -/
def stQueued : JobsState :=
  { freshState JobsQuery with
    stored_data := [("stats:changed", Json.str "first"), ("stats:changed", Json.str "second")] }

/-- A stats:changed payload for crawl id J, positional form. -/
def statsPayload : Json :=
  Json.arr (.cons (Json.str "J") (.cons (Json.str "snap") .nil))

/-- A jobs.tailed payload recording crawl id J with the given mongo id
and urls. -/
def tailedPayload (m u : String) : Json :=
  Json.obj (.cons "id" (Json.str "J")
    (.cons "_id" (Json.str m) (.cons "urls" (Json.str u) .nil)))

/-- An event trace that tails crawl id J twice, with different mongo
ids and urls, then receives a stats:changed for J. -/
def retailTrace : List (String × Json × Option String) :=
  [("jobs.tailed", tailedPayload "m1" "u1", some "0"),
   ("jobs.tailed", tailedPayload "m2" "u2", some "0"),
   ("stats:changed", statsPayload, none)]

/-- A pages session in delay mode. -/
def pagesDelay : PagesState :=
  { freshState PagesQuery with delay_mode := true, data_hb := some 9 }

/-- A fresh, empty class-level attribute record. -/
def clsFresh : SharedClassAttrs := ⟨[], [], [], []⟩

/-- One live session, with delay mode on. -/
def sessionA : SessionInstanceAttrs := ⟨true, some 5⟩

/-- A second, distinct live session, with delay mode off. -/
def sessionB : SessionInstanceAttrs := ⟨false, none⟩

/-! ## Theorems -/

theorem create_jobs_query_matches (incl excl : List String) (u : String) :
    jobsQueryMatches (create_jobs_query incl excl) u =
      (jobsConditions incl excl).all (condMatches u) := by
  rw [create_jobs_query.eq_def]
  cases h : jobsConditions incl excl with
  | nil => simp [jobsQueryMatches]
  | cons c tl =>
      cases tl with
      | nil => simp [jobsQueryMatches]
      | cons c2 r => simp [jobsQueryMatches]

/-- C1, counterexample.  The claim reads multiple include conditions as
joined by or, but create_jobs_query puts every condition, include and
exclude alike, into one and-list: with includes a and b and no
excludes, the built query rejects the URL xay, which contains a (and
so satisfies the claimed contains-at-least-one-include predicate). -/
theorem c1_or_includes_counterexample :
    jobsQueryMatches (create_jobs_query ["a", "b"] []) "xay" = false ∧
      claimedJobsPred ["a", "b"] [] "xay" = true := by
  decide

/-- C1, amended.  For every pair of lists (include, exclude) of
substrings, create_jobs_query builds a predicate that matches exactly
the job URLs that contain every include substring and contain none of
the exclude substrings: include conditions are conjoined like the
exclude conditions (all conditions land in one and-group), not
disjoined. -/
theorem c1_amended_all_conditions_conjoined (incl excl : List String) (u : String) :
    jobsQueryMatches (create_jobs_query incl excl) u =
      (incl.all (fun s => strContains u s) && excl.all (fun s => !strContains u s)) := by
  rw [create_jobs_query_matches]
  have hmap : ∀ {β : Type} (f : String → β) (p : β → Bool) (l : List String),
      (l.map f).all p = l.all (fun a => p (f a)) := by
    intro β f p l
    induction l with
    | nil => rfl
    | cons a tl ih => simp [ih]
  simp [jobsConditions, List.all_append, hmap, condMatches]

theorem runSends_filter (sends : List (String × Json)) : ∀ log : List String,
    runSends log sends =
      log ++ (sends.map (fun p => encodeEnvelope p.1 p.2)).filter
        (fun m => decide (m.length < max_msg_size)) := by
  induction sends with
  | nil => intro log; simp [runSends]
  | cons p rest ih =>
      intro log
      obtain ⟨e, d⟩ := p
      show runSends (sendEventT log e d) rest = _
      rw [ih]
      unfold sendEventT
      by_cases h : (encodeEnvelope e d).length < max_msg_size <;>
        simp [h, List.filter_cons]

/-- C7.  The send path serializes the envelope of event name and
payload under a fixed cap of 2 ^ 20; over any sequence of sends, the
transport receives exactly the serialized messages strictly below the
cap, in order (each below-cap message delivered immediately, each
at-or-above-cap message dropped silently with no delivery), so no
message at the transport boundary ever reaches the cap, regardless of
event type. -/
theorem c7_size_cap_gate (sends : List (String × Json)) :
    max_msg_size = 2 ^ 20 ∧
      transportLog sends =
        (sends.map (fun p => encodeEnvelope p.1 p.2)).filter
          (fun m => decide (m.length < max_msg_size)) ∧
      (transportLog sends).all (fun m => decide (m.length < max_msg_size)) = true := by
  refine ⟨rfl, by simpa using runSends_filter sends [], ?_⟩
  have h := runSends_filter sends []
  simp only [transportLog, h, List.nil_append, List.all_eq_true, List.mem_filter]
  intro m hm
  exact hm.2

theorem pagesConditions_sitesJson (sites : List (String × SiteVal))
    (h : ∀ p ∈ sites, ∀ s, p.2 = SiteVal.idv s → strContains s "url_field" = false) :
    pagesConditions (sitesJson sites) =
      some (sites.map (fun p => specSiteCond p.1 p.2)) := by
  induction sites with
  | nil => rfl
  | cons p rest ih =>
      obtain ⟨site, v⟩ := p
      have hrest : ∀ p ∈ rest, ∀ s, p.2 = SiteVal.idv s →
          strContains s "url_field" = false :=
        fun q hq => h q (List.mem_cons_of_mem _ hq)
      cases v with
      | nullv => simp [sitesJson, pagesConditions, pagesSiteCond, siteValJson,
          jsonTruthy, specSiteCond, ih hrest]
      | idv s =>
          have hs0 : strContains s "url_field" = false :=
            h (site, SiteVal.idv s) (List.mem_cons_self _ _) s rfl
          by_cases hs : s = ""
          · subst hs
            simp [sitesJson, pagesConditions, pagesSiteCond, siteValJson,
              jsonTruthy, specSiteCond, ih hrest,
              show isValidObjectId "" = false from rfl]
          · simp [sitesJson, pagesConditions, pagesSiteCond, siteValJson,
              jsonTruthy, hs, hs0, specSiteCond, ih hrest]
      | fieldv f i =>
          simp [sitesJson, pagesConditions, pagesSiteCond, siteValJson,
            jsonTruthy, jfHasKey, jfLookup, specSiteCond, ih hrest]

/-- C8, counterexample.  The cursor string url_field is not a valid
ObjectId, so by the claim its site gets the URL-only condition and the
subscription does not fail; but the source's membership test
`"url_field" in site_ids[site]` is a substring test on a string cursor,
succeeds here, and the following string subscript raises an uncaught
TypeError: create_pages_query raises (none) and the urls-mode
subscription call fails, while the claim-side query is the URL-only
condition. -/
theorem c8_url_field_string_counterexample :
    create_pages_query (Json.obj (.cons "a.com" (Json.str "url_field") .nil)) = none ∧
    isValidObjectId "url_field" = false ∧
    specPagesQuery [("a.com", SiteVal.idv "url_field")] =
      PagesQuery.single (SiteCond.urlOnly "url" "a.com") ∧
    (subscribe_to_pages (freshState PagesQuery)
        (Json.obj (.cons "a.com" (Json.str "url_field") .nil)) 0 "urls").isNone
      = true := by
  decide

/-- C8, amended.  On a site_ids mapping of structured filter values
whose string cursors do not contain the substring url_field,
create_pages_query builds per requested site the condition
URL-matches-site dot star intersected with persistent-id strictly
above the cursor when the cursor string is a valid ObjectId, and the
URL-only condition when the cursor fails to parse or the site carries
no filter value (no exception escapes, so the subscription is not
failed); multiple site conditions combine under one or-operator, a
single one is unwrapped, and an empty mapping yields the
match-everything query.  For a string cursor containing url_field the
source instead subscripts the string and raises an uncaught TypeError,
failing the subscription (the counterexample). -/
theorem c8_amended_pages_query_refinement (sites : List (String × SiteVal))
    (h : ∀ p ∈ sites, ∀ s, p.2 = SiteVal.idv s → strContains s "url_field" = false) :
    create_pages_query (Json.obj (sitesJson sites)) = some (specPagesQuery sites) := by
  cases sites with
  | nil => rfl
  | cons p rest =>
      obtain ⟨site, v⟩ := p
      show (pagesConditions (sitesJson ((site, v) :: rest))).map combinePages = _
      rw [pagesConditions_sitesJson ((site, v) :: rest) h]
      simp [specPagesQuery]

theorem c8_amended_pages_query_refinement_witness :
    create_pages_query (Json.obj (sitesJson
        [("a.com", SiteVal.idv "0123456789abcdef01234567"),
         ("b.com", SiteVal.nullv)])) =
      some (specPagesQuery
        [("a.com", SiteVal.idv "0123456789abcdef01234567"),
         ("b.com", SiteVal.nullv)]) :=
  c8_amended_pages_query_refinement
    [("a.com", SiteVal.idv "0123456789abcdef01234567"), ("b.com", SiteVal.nullv)]
    (by
      intro p hp s hs
      rcases List.mem_cons.mp hp with rfl | hp2
      · cases hs
        decide
      · rcases List.mem_cons.mp hp2 with rfl | hnil
        · simp at hs
        · exact absurd hnil (List.not_mem_nil p))

theorem dictLookup_eq_none_of_not_mem {α : Type} (d : List (String × α)) (k : String)
    (h : k ∉ d.map Prod.fst) : dictLookup d k = none := by
  induction d with
  | nil => rfl
  | cons p tl ih =>
      simp only [List.map_cons, List.mem_cons] at h
      push_neg at h
      simp [dictLookup, Ne.symm h.1, ih h.2]

theorem dictLookup_dictRemove_self {α : Type} (d : List (String × α)) (k : String)
    (hnd : (d.map Prod.fst).Nodup) : dictLookup (dictRemove d k) k = none := by
  induction d with
  | nil => rfl
  | cons p tl ih =>
      simp only [List.map_cons, List.nodup_cons] at hnd
      by_cases hk : p.1 = k
      · subst hk
        simp only [dictRemove, if_pos rfl]
        exact dictLookup_eq_none_of_not_mem tl p.1 hnd.1
      · obtain ⟨k0, v⟩ := p
        simp only at hk
        simp [dictRemove, hk, dictLookup, ih hnd.2]

/-- C9.  Cancelling a registered subscription removes it from the
registry, signals _on_close on its storage link and returns true; an
immediately repeated cancel, or a cancel of an absent id, returns
false (no exception is modelled: the function is total) and leaves
the state unchanged. -/
theorem c9_cancel_semantics (st : JobsState) (sid : String)
    (hnd : (st.storages.map Prod.fst).Nodup) :
    ((dictLookup st.storages sid).isSome = true →
        cancel_subscription st sid =
          (true,
            { st with storages := dictRemove st.storages sid,
                      closed_links := st.closed_links ++ [sid] }) ∧
        cancel_subscription (cancel_subscription st sid).2 sid =
          (false, (cancel_subscription st sid).2)) ∧
    ((dictLookup st.storages sid).isSome = false →
        cancel_subscription st sid = (false, st)) := by
  constructor
  · intro hsome
    obtain ⟨v, hv⟩ := Option.isSome_iff_exists.mp hsome
    have h1 : cancel_subscription st sid =
        (true,
          { st with storages := dictRemove st.storages sid,
                    closed_links := st.closed_links ++ [sid] }) := by
      simp [cancel_subscription, hv]
    refine ⟨h1, ?_⟩
    rw [h1]
    have h2 : dictLookup (dictRemove st.storages sid) sid = none :=
      dictLookup_dictRemove_self st.storages sid hnd
    simp [cancel_subscription, h2]
  · intro hnone
    have h : dictLookup st.storages sid = none := by
      cases h : dictLookup st.storages sid with
      | none => rfl
      | some v => rw [h] at hnone; simp at hnone
    simp [cancel_subscription, h]

theorem c9_cancel_semantics_witness :
    (cancel_subscription stVisible "0" =
      (true,
        { stVisible with storages := dictRemove stVisible.storages "0",
                         closed_links := stVisible.closed_links ++ ["0"] }) ∧
      cancel_subscription (cancel_subscription stVisible "0").2 "0" =
        (false, (cancel_subscription stVisible "0").2)) ∧
    cancel_subscription (freshState JobsQuery) "7" = (false, freshState JobsQuery) :=
  ⟨(c9_cancel_semantics stVisible "0" (by decide)).1 (by decide),
   (c9_cancel_semantics (freshState JobsQuery) "7" (by decide)).2 (by decide)⟩

/-- C10.  A subscribe_to_pages call whose mode is neither urls nor ids
registers nothing (the storage registry and the subscribe log are
untouched), yet still configures the heartbeat from update_delay, and
returns the result dict with datatype pages_subscription_id, empty
single_subscription_id and empty id mapping. -/
theorem c10_unknown_mode (st : PagesState) (site_ids : Json) (update_delay : Int)
    (mode : String) (h1 : mode ≠ "urls") (h2 : mode ≠ "ids") :
    subscribe_to_pages st site_ids update_delay mode =
      some ({ datatype := "pages_subscription_id",
              single_subscription_id := "", id := [] },
        init_hb st update_delay) ∧
    (init_hb st update_delay).storages = st.storages ∧
    (init_hb st update_delay).subscribed = st.subscribed ∧
    (0 < update_delay ∧ st.data_hb = none →
      (init_hb st update_delay).delay_mode = true ∧
      (init_hb st update_delay).data_hb = some update_delay) := by
  refine ⟨by simp [subscribe_to_pages, h1, h2], ?_, ?_, ?_⟩ <;>
    unfold init_hb <;> split <;> simp_all

theorem c10_unknown_mode_witness :
    subscribe_to_pages (freshState PagesQuery) Json.null 5 "bogus" =
      some ({ datatype := "pages_subscription_id",
              single_subscription_id := "", id := [] },
        init_hb (freshState PagesQuery) 5) ∧
    (init_hb (freshState PagesQuery) 5).delay_mode = true :=
  ⟨(c10_unknown_mode (freshState PagesQuery) Json.null 5 "bogus"
      (by decide) (by decide)).1,
   ((c10_unknown_mode (freshState PagesQuery) Json.null 5 "bogus"
      (by decide) (by decide)).2.2.2 (by exact ⟨by omega, rfl⟩)).1⟩

/-- C3.  Evaluation of the shared-class-attribute semantics of the
source at the failing input: session A (in delay mode) registers the
first subscription, which is assigned id 0 and lands in the
class-level registry; the distinct session B then both observes it
and successfully cancels it, destroying A's subscription.  The
claim's session isolation therefore fails on the code: the storages
dict (and likewise the other class-level tables) is one shared
mutable object across connections. -/
theorem c3_class_level_state_shared :
    (add_storage_wrapper_shared clsFresh sessionA).1 = "0" ∧
    (dictLookup (add_storage_wrapper_shared clsFresh sessionA).2.storages "0").isSome
      = true ∧
    (cancel_subscription_shared (add_storage_wrapper_shared clsFresh sessionA).2
      sessionB "0").1 = true ∧
    sessionA ≠ sessionB := by
  decide

/-- C4, counterexample.  After two registrations and one cancellation,
the registry holds one subscription again, so the next registration is
assigned id str(1), the very id already assigned to the second
subscription of the session: ids are reused after cancellation (the
write even lands on the still-live subscription's key). -/
theorem c4_id_reuse_counterexample :
    (runOps (freshState JobsQuery) []
        [RegOp.add, RegOp.add, RegOp.cancel "0", RegOp.add]).2 = ["0", "1", "1"] ∧
    ¬ ((runOps (freshState JobsQuery) []
        [RegOp.add, RegOp.add, RegOp.cancel "0", RegOp.add]).2).Nodup := by
  decide

theorem dictSet_fresh {α : Type} (d : List (String × α)) (k : String) (v : α)
    (h : k ∉ d.map Prod.fst) : dictSet d k v = d ++ [(k, v)] := by
  induction d with
  | nil => rfl
  | cons p tl ih =>
      simp only [List.map_cons, List.mem_cons] at h
      push_neg at h
      simp [dictSet, Ne.symm h.1, ih h.2]

theorem pyStr_not_mem_range (n : Nat) : pyStr n ∉ (List.range n).map pyStr := by
  intro h
  obtain ⟨i, hi, hpy⟩ := List.mem_map.mp h
  exact absurd (pyStr_injective hpy) (Nat.ne_of_lt (List.mem_range.mp hi))

theorem runOps_add_only (ops : List RegOp) : ∀ (st : JobsState) (acc : List String) (n : Nat),
    (∀ op ∈ ops, op = RegOp.add) →
    st.storages.map Prod.fst = (List.range n).map pyStr →
    (runOps st acc ops).2 = acc ++ (List.range' n ops.length).map pyStr := by
  induction ops with
  | nil => intro st acc n _ _; simp [runOps]
  | cons op rest ih =>
      intro st acc n hadd hkeys
      have hop : op = RegOp.add := hadd op (by simp)
      subst hop
      have hlen : st.storages.length = n := by
        have := congrArg List.length hkeys
        simpa using this
      have hfresh : pyStr n ∉ st.storages.map Prod.fst := by
        rw [hkeys]; exact pyStr_not_mem_range n
      have hset : dictSet st.storages (pyStr st.storages.length) [] =
          st.storages ++ [(pyStr n, [])] := by
        rw [hlen]; exact dictSet_fresh st.storages (pyStr n) [] hfresh
      show (runOps
        { st with storages := dictSet st.storages (pyStr st.storages.length) [],
                  subscribed := st.subscribed ++ [(pyStr st.storages.length, JobsQuery.empty)] }
        (acc ++ [pyStr st.storages.length]) rest).2 = _
      rw [ih _ _ (n + 1) (fun o ho => hadd o (by simp [ho]))
        (by simp [hset, hkeys, List.range_succ]), hlen]
      simp [List.range']

/-- C4, amended.  A new subscription id is assigned as str of the
current count of subscriptions at creation time; in a session in which
no subscription has been cancelled, every assigned id is distinct from
the id of every subscription previously created.  After a
cancellation the count drops, so an id can be assigned again (the
reuse shown by the counterexample); distinctness holds only for the
cancel-free prefix of a session's life. -/
theorem c4_amended_ids_fresh_without_cancel (st : JobsState) (q : JobsQuery)
    (ops : List RegOp) (h : ∀ op ∈ ops, op = RegOp.add) :
    (add_storage_wrapper st q).1 = pyStr st.storages.length ∧
    ((runOps (freshState JobsQuery) [] ops).2).Nodup := by
  refine ⟨rfl, ?_⟩
  rw [runOps_add_only ops (freshState JobsQuery) [] 0 h (by simp [freshState])]
  simp only [List.nil_append]
  exact (List.nodup_range' 0 ops.length 1 (by omega)).map pyStr_injective

theorem c4_amended_ids_fresh_without_cancel_witness :
    (add_storage_wrapper (freshState JobsQuery) JobsQuery.empty).1 = pyStr 0 ∧
    ((runOps (freshState JobsQuery) [] [RegOp.add, RegOp.add, RegOp.add]).2).Nodup :=
  c4_amended_ids_fresh_without_cancel (freshState JobsQuery) JobsQuery.empty
    [RegOp.add, RegOp.add, RegOp.add] (by decide)

theorem jfLookup_jfSet_ne : ∀ (fs : JsonFields) (k : String) (v : Json) (k' : String),
    k ≠ k' → jfLookup (jfSet fs k v) k' = jfLookup fs k'
  | .nil, k, v, k', h => by simp [jfSet, jfLookup, h]
  | .cons k0 v0 tl, k, v, k', h => by
      by_cases h0 : k0 = k
      · subst h0
        simp [jfSet, jfLookup, h]
      · simp [jfSet, jfLookup, h0, jfLookup_jfSet_ne tl k v k' h]

theorem stats_fix_obj_fields (loads : String → Option Json) (fs : JsonFields) :
    ∃ fs', stats_fix loads (Json.obj fs) = some (Json.obj fs') ∧
      ∀ k, k ≠ "stats" → jfLookup fs' k = jfLookup fs k := by
  cases hs : jfLookup fs "stats" with
  | none => exact ⟨fs, by simp [stats_fix, hs], fun _ _ => rfl⟩
  | some sv =>
      cases sv with
      | str s =>
          cases hl : loads s with
          | none => exact ⟨fs, by simp [stats_fix, hs, hl], fun _ _ => rfl⟩
          | some v =>
              refine ⟨jfSet fs "stats" v, by simp [stats_fix, hs, hl], fun k hk => ?_⟩
              exact jfLookup_jfSet_ne fs "stats" v k (fun he => hk he.symm)
      | null => exact ⟨fs, by simp [stats_fix, hs], fun _ _ => rfl⟩
      | jbool b => exact ⟨fs, by simp [stats_fix, hs], fun _ _ => rfl⟩
      | num n => exact ⟨fs, by simp [stats_fix, hs], fun _ _ => rfl⟩
      | arr l => exact ⟨fs, by simp [stats_fix, hs], fun _ _ => rfl⟩
      | obj fs0 => exact ⟨fs, by simp [stats_fix, hs], fun _ _ => rfl⟩

theorem write_event_stats (loads : String → Option Json) (st : JobsState)
    (J s : Json) (rest : JsonList) (hid : Option String) :
    write_event loads st "stats:changed" (Json.arr (.cons J (.cons s rest))) hid =
      if job_allowed st (some J) = true then
        (stats_fix loads (enrich st J s)).map (dispatch st "stats:changed")
      else some st := by
  have hlen : 1 < jlLen (JsonList.cons J (JsonList.cons s rest)) := by
    simp [jlLen]
  simp only [write_event, tailed_step, subject_and_payload]
  norm_num
  rw [if_pos hlen]
  simp only [jlGet]
  by_cases hall : job_allowed st (some J) = true
  · simp only [hall, if_pos rfl, if_true]
    cases hfix : stats_fix loads (enrich st J s) <;> simp [hfix]
  · rw [Bool.not_eq_true] at hall
    simp [hall]

theorem write_event_state (loads : String → Option Json) (st : JobsState)
    (fs : JsonFields) (J : Json) (hid : Option String)
    (hJ : jfLookup fs "id" = some J) :
    write_event loads st "jobs:state" (Json.obj fs) hid =
      if job_allowed st (some J) = true then
        (stats_fix loads (Json.obj fs)).map (dispatch st "jobs:state")
      else some st := by
  simp only [write_event, tailed_step, subject_and_payload]
  norm_num
  rw [hJ]
  by_cases hall : job_allowed st (some J) = true
  · simp only [hall, if_pos rfl, if_true]
    cases hfix : stats_fix loads (Json.obj fs) <;> simp [hfix, hall]
  · rw [Bool.not_eq_true] at hall
    simp [hall]

theorem dispatch_sum (st : JobsState) (e : String) (ed : Json) :
    (dispatch st e ed).sent.length + (dispatch st e ed).stored_data.length =
      st.sent.length + st.stored_data.length + 1 := by
  unfold dispatch
  split <;> simp <;> omega

/-- C2.  For a jobs-feed event named stats:changed (positional payload
carrying the subject crawl id first) or jobs:state (dict payload
carrying the subject under id), with a truthy subject J: the event is
forwarded (exactly one event is queued or handed to the send gate) iff
J belongs to the visible-id set of at least one active subscription of
the session, and otherwise the event is dropped entirely, the state
left exactly as it was, nothing queued and nothing sent. -/
theorem c2_visibility_gate (loads : String → Option Json) (st : JobsState)
    (ev : String) (data : Json) (hid : Option String) (J : Json)
    (hshape : (ev = "stats:changed" ∧
        ∃ s rest, data = Json.arr (.cons J (.cons s rest))) ∨
      (ev = "jobs:state" ∧
        ∃ fs, data = Json.obj fs ∧ jfLookup fs "id" = some J))
    (hJ : jsonTruthy J = true) :
    ((st.storages.any fun p => p.2.any fun x => jsonBeq x J) = true →
      (write_event loads st ev data hid).map
          (fun x => x.sent.length + x.stored_data.length) =
        some (st.sent.length + st.stored_data.length + 1)) ∧
    ((st.storages.any fun p => p.2.any fun x => jsonBeq x J) = false →
      write_event loads st ev data hid = some st) := by
  have hallowed : job_allowed st (some J) =
      st.storages.any fun p => p.2.any fun x => jsonBeq x J := by
    simp [job_allowed, hJ]
  rcases hshape with ⟨hev, s, rest, hdata⟩ | ⟨hev, fs, hdata, hfs⟩
  · subst hev hdata
    rw [write_event_stats]
    constructor
    · intro hvis
      rw [hallowed, hvis, if_pos rfl]
      obtain ⟨fs', hfix, _⟩ := stats_fix_obj_fields loads (enrichFields st J s)
      have : stats_fix loads (enrich st J s) = some (Json.obj fs') := hfix
      rw [this]
      simp [dispatch_sum]
    · intro hvis
      rw [hallowed, hvis]
      simp
  · subst hev hdata
    rw [write_event_state loads st fs J hid hfs]
    constructor
    · intro hvis
      rw [hallowed, hvis, if_pos rfl]
      obtain ⟨fs', hfix, _⟩ := stats_fix_obj_fields loads fs
      rw [hfix]
      simp [dispatch_sum]
    · intro hvis
      rw [hallowed, hvis]
      simp

theorem c2_visibility_gate_witness :
    ((write_event loads0 stVisible "stats:changed" statsPayload none).map
        (fun x => x.sent.length + x.stored_data.length) = some 1) ∧
    write_event loads0 stBlind "stats:changed" statsPayload none = some stBlind :=
  ⟨(c2_visibility_gate loads0 stVisible "stats:changed" statsPayload none
      (Json.str "J")
      (Or.inl ⟨rfl, Json.str "snap", JsonList.nil, rfl⟩) (by decide)).1 (by decide),
   (c2_visibility_gate loads0 stBlind "stats:changed" statsPayload none
      (Json.str "J")
      (Or.inl ⟨rfl, Json.str "snap", JsonList.nil, rfl⟩) (by decide)).2 (by decide)⟩

/-- C5, counterexample.  With two events queued, one heartbeat firing
passes only the oldest one to the send gate and leaves the other
queued: send_updates returns out of its loop after the first pop, so a
firing does not drain the queue as the claim states. -/
theorem c5_single_event_per_firing_counterexample :
    (send_updates stQueued).sent = [("stats:changed", Json.str "first")] ∧
    (send_updates stQueued).stored_data = [("stats:changed", Json.str "second")] ∧
    (send_updates stQueued).stored_data ≠ [] := by
  have h2 : (send_updates stQueued).stored_data =
      [("stats:changed", Json.str "second")] := rfl
  refine ⟨rfl, h2, ?_⟩
  rw [h2]
  exact List.cons_ne_nil _ _

theorem fireN_take_drop {α : Type} (k : Nat) : ∀ st : HandlerState α,
    (fireN st k).sent = st.sent ++ st.stored_data.take k ∧
    (fireN st k).stored_data = st.stored_data.drop k := by
  induction k with
  | zero => intro st; simp [fireN]
  | succ k ih =>
      intro st
      show (fireN (send_updates st) k).sent = _ ∧
        (fireN (send_updates st) k).stored_data = _
      cases hq : st.stored_data with
      | nil =>
          have hsu : send_updates st = st := by
            unfold send_updates
            rw [hq]
          rw [hsu]
          obtain ⟨h1, h2⟩ := ih st
          rw [hq] at h1 h2
          simp at h1 h2
          simp [h1, h2]
      | cons x xs =>
          have hsu : send_updates st =
              { st with stored_data := xs, sent := st.sent ++ [x] } := by
            unfold send_updates
            rw [hq]
          rw [hsu]
          obtain ⟨h1, h2⟩ := ih { st with stored_data := xs, sent := st.sent ++ [x] }
          refine ⟨?_, ?_⟩
          · rw [h1]; simp
          · rw [h2]; simp

/-- C5, amended.  Once delay mode is on, a subscribable event
(stats:changed for the jobs feed when it passes the visibility gate,
pages.tailed for the pages feed) is appended to the outbound queue and
nothing reaches the send gate; with delay mode off (never enabled),
such events go to the send gate immediately.  Each heartbeat firing,
however, forwards at most one queued event, the oldest: k firings
deliver exactly the first k queued events in the FIFO order they were
generated (never reordered), rather than draining the whole queue in
one firing as the claim states.  Enabling a heartbeat with a positive
interval when none exists turns delay mode on. -/
theorem c5_amended_queue_and_single_drain
    (pst : PagesState) (d : Json)
    (loads : String → Option Json) (st : JobsState) (J s : Json) (rest : JsonList)
    (hid : Option String) (st2 : JobsState) (k : Nat)
    (st3 : PagesState) (dl : Int) :
    (pst.delay_mode = true →
      write_event_pages pst "pages.tailed" d =
        { pst with stored_data := pst.stored_data ++ [("pages.tailed", d)] }) ∧
    (pst.delay_mode = false →
      write_event_pages pst "pages.tailed" d =
        { pst with sent := pst.sent ++ [("pages.tailed", d)] }) ∧
    (st.delay_mode = true → job_allowed st (some J) = true →
      (write_event loads st "stats:changed"
          (Json.arr (.cons J (.cons s rest))) hid).map
          (fun x => (x.sent, x.stored_data.length)) =
        some (st.sent, st.stored_data.length + 1)) ∧
    (st.delay_mode = false → job_allowed st (some J) = true →
      (write_event loads st "stats:changed"
          (Json.arr (.cons J (.cons s rest))) hid).map
          (fun x => (x.sent.length, x.stored_data)) =
        some (st.sent.length + 1, st.stored_data)) ∧
    ((fireN st2 k).sent = st2.sent ++ st2.stored_data.take k ∧
      (fireN st2 k).stored_data = st2.stored_data.drop k) ∧
    (0 < dl → st3.data_hb = none →
      (init_hb st3 dl).delay_mode = true ∧ (init_hb st3 dl).data_hb = some dl) := by
  refine ⟨?_, ?_, ?_, ?_, fireN_take_drop k st2, ?_⟩
  · intro hdm
    simp [write_event_pages, pages_event_types, hdm]
  · intro hdm
    simp [write_event_pages, pages_event_types, hdm]
  · intro hdm hall
    rw [write_event_stats, if_pos hall]
    obtain ⟨fs', hfix, _⟩ := stats_fix_obj_fields loads (enrichFields st J s)
    rw [show stats_fix loads (enrich st J s) =
      some (Json.obj fs') from hfix]
    simp [dispatch, jobs_event_types, hdm]
  · intro hdm hall
    rw [write_event_stats, if_pos hall]
    obtain ⟨fs', hfix, _⟩ := stats_fix_obj_fields loads (enrichFields st J s)
    rw [show stats_fix loads (enrich st J s) =
      some (Json.obj fs') from hfix]
    simp [dispatch, jobs_event_types, hdm]
  · intro hdl hhb
    simp [init_hb, hdl, hhb]

theorem c5_amended_queue_and_single_drain_witness :
    write_event_pages pagesDelay "pages.tailed" Json.null =
      { pagesDelay with
        stored_data := pagesDelay.stored_data ++ [("pages.tailed", Json.null)] } ∧
    write_event_pages (freshState PagesQuery) "pages.tailed" Json.null =
      { freshState PagesQuery with
        sent := (freshState PagesQuery).sent ++ [("pages.tailed", Json.null)] } ∧
    (write_event loads0 stVisibleDelay "stats:changed" statsPayload none).map
        (fun x => (x.sent, x.stored_data.length)) =
      some (stVisibleDelay.sent, stVisibleDelay.stored_data.length + 1) ∧
    (write_event loads0 stVisible "stats:changed" statsPayload none).map
        (fun x => (x.sent.length, x.stored_data)) =
      some (stVisible.sent.length + 1, stVisible.stored_data) ∧
    (fireN stQueued 1).sent = stQueued.sent ++ stQueued.stored_data.take 1 ∧
    (init_hb (freshState PagesQuery) 5).delay_mode = true :=
  ⟨(c5_amended_queue_and_single_drain pagesDelay Json.null loads0 stVisibleDelay
      (Json.str "J") (Json.str "snap") JsonList.nil none stQueued 1
      (freshState PagesQuery) 5).1 rfl,
   (c5_amended_queue_and_single_drain (freshState PagesQuery) Json.null loads0
      stVisibleDelay (Json.str "J") (Json.str "snap") JsonList.nil none stQueued 1
      (freshState PagesQuery) 5).2.1 rfl,
   (c5_amended_queue_and_single_drain pagesDelay Json.null loads0 stVisibleDelay
      (Json.str "J") (Json.str "snap") JsonList.nil none stQueued 1
      (freshState PagesQuery) 5).2.2.1 rfl (by decide),
   (c5_amended_queue_and_single_drain pagesDelay Json.null loads0 stVisible
      (Json.str "J") (Json.str "snap") JsonList.nil none stQueued 1
      (freshState PagesQuery) 5).2.2.2.1 rfl (by decide),
   ((c5_amended_queue_and_single_drain pagesDelay Json.null loads0 stVisible
      (Json.str "J") (Json.str "snap") JsonList.nil none stQueued 1
      (freshState PagesQuery) 5).2.2.2.2.1).1,
   ((c5_amended_queue_and_single_drain pagesDelay Json.null loads0 stVisible
      (Json.str "J") (Json.str "snap") JsonList.nil none stQueued 1
      (freshState PagesQuery) 5).2.2.2.2.2 (by omega) rfl).1⟩

/-- C6, counterexample.  Crawl id J is first tailed with mongo id m1
and urls u1, then re-tailed with m2 and u2; the subsequent
stats:changed enrichment for J carries m2 and u2, not the first
recorded m1 and u1: the dict write of a later tailed event replaces
the earlier recording, contradicting the claim's first-recorded
reading. -/
theorem c6_retail_overwrite_counterexample :
    (run_events loads0 stBlind retailTrace).map (fun st =>
        st.sent.getLast?.map (fun p =>
          match p.2 with
          | Json.obj fs => (jfLookup fs "_id", jfLookup fs "urls")
          | _ => (none, none))) =
      some (some (some (Json.str "m2"), some (Json.str "u2"))) ∧
    Json.str "m2" ≠ Json.str "m1" ∧ Json.str "u2" ≠ Json.str "u1" := by
  refine ⟨rfl, ?_, ?_⟩ <;> simp

theorem jdictLookup_jdictSet_self (m : List (Json × Json)) (k v : Json) :
    jdictLookup (jdictSet m k v) k = some v := by
  induction m with
  | nil => simp [jdictSet, jdictLookup, jsonBeq_refl]
  | cons p tl ih =>
      obtain ⟨k0, v0⟩ := p
      by_cases h : jsonBeq k0 k = true
      · simp [jdictSet, h, jdictLookup, jsonBeq_refl]
      · simp only [Bool.not_eq_true] at h
        simp [jdictSet, h, jdictLookup, ih]

theorem outEvents_dispatch (st : JobsState) (e : String) (ed : Json) :
    outEvents st (dispatch st e ed) = [(e, ed)] := by
  unfold dispatch outEvents
  split <;> simp [List.drop_left, List.drop_length]

theorem dispatch_mongo (st : JobsState) (e : String) (ed : Json) :
    (dispatch st e ed).mongo_id_mapping = st.mongo_id_mapping := by
  unfold dispatch
  split <;> rfl

theorem dispatch_urls (st : JobsState) (e : String) (ed : Json) :
    (dispatch st e ed).job_url_mapping = st.job_url_mapping := by
  unfold dispatch
  split <;> rfl

/-- C6, amended.  A stats:changed enrichment for a visible crawl id J
emits exactly one event whose _id and urls entries are the currently
recorded mongo id and urls for J, each defaulting to the empty string
when J was never tailed; and a jobs.tailed event recording crawl id i
overwrites the tables so that they afterwards hold exactly that
event's mongo id and urls (the most recent recording wins; the first
recording governs later enrichments only until a re-tail of the same
id). -/
theorem c6_amended_latest_recording_roundtrip
    (loads : String → Option Json) (st : JobsState) (J s : Json) (rest : JsonList)
    (hid : Option String) (fs : JsonFields) (h : String) (i : Json)
    (ids : List Json) :
    (job_allowed st (some J) = true →
      ∃ st' fs', write_event loads st "stats:changed"
          (Json.arr (.cons J (.cons s rest))) hid = some st' ∧
        outEvents st st' = [("stats:changed", Json.obj fs')] ∧
        jfLookup fs' "_id" = some (jdictGetD st.mongo_id_mapping J (Json.str "")) ∧
        jfLookup fs' "urls" = some (jdictGetD st.job_url_mapping J (Json.str ""))) ∧
    (jfLookup fs "id" = some i → h ≠ "" → dictLookup st.storages h = some ids →
      ∃ st'', write_event loads st "jobs.tailed" (Json.obj fs) (some h) = some st'' ∧
        jdictLookup st''.mongo_id_mapping i = some (jfGetD fs "_id" Json.null) ∧
        jdictLookup st''.job_url_mapping i = some (jfGetD fs "urls" Json.null)) ∧
    (jdictLookup st.mongo_id_mapping J = none →
      jdictGetD st.mongo_id_mapping J (Json.str "") = Json.str "") ∧
    (jdictLookup st.job_url_mapping J = none →
      jdictGetD st.job_url_mapping J (Json.str "") = Json.str "") := by
  refine ⟨?_, ?_, ?_, ?_⟩
  · intro hall
    rw [write_event_stats, if_pos hall]
    obtain ⟨fs', hfix, hpres⟩ := stats_fix_obj_fields loads (enrichFields st J s)
    rw [show stats_fix loads (enrich st J s) = some (Json.obj fs') from hfix]
    refine ⟨dispatch st "stats:changed" (Json.obj fs'), fs', rfl,
      outEvents_dispatch st "stats:changed" (Json.obj fs'), ?_, ?_⟩
    · rw [hpres "_id" (by decide)]
      simp [enrichFields, jfLookup]
    · rw [hpres "urls" (by decide)]
      simp [enrichFields, jfLookup]
  · intro hkey hne hst
    have hts : tailed_step st "jobs.tailed" (Json.obj fs) (some h) =
        some { st with
          storages := dictSet st.storages h (jsetAdd ids i),
          mongo_id_mapping :=
            jdictSet st.mongo_id_mapping i (jfGetD fs "_id" Json.null),
          job_url_mapping :=
            jdictSet st.job_url_mapping i (jfGetD fs "urls" Json.null) } := by
      simp [tailed_step, jfHasKey, hkey, hne, hst]
    simp only [write_event, hts]
    obtain ⟨fs2, hfix, _⟩ := stats_fix_obj_fields loads fs
    rw [hfix]
    refine ⟨_, rfl, ?_, ?_⟩
    · rw [dispatch_mongo]
      exact jdictLookup_jdictSet_self _ _ _
    · rw [dispatch_urls]
      exact jdictLookup_jdictSet_self _ _ _
  · intro hnone
    simp [jdictGetD, hnone]
  · intro hnone
    simp [jdictGetD, hnone]

theorem c6_amended_latest_recording_roundtrip_witness :
    (∃ st' fs', write_event loads0 stVisible "stats:changed" statsPayload none
        = some st' ∧
      outEvents stVisible st' = [("stats:changed", Json.obj fs')] ∧
      jfLookup fs' "_id" =
        some (jdictGetD stVisible.mongo_id_mapping (Json.str "J") (Json.str "")) ∧
      jfLookup fs' "urls" =
        some (jdictGetD stVisible.job_url_mapping (Json.str "J") (Json.str ""))) ∧
    (∃ st'', write_event loads0 stBlind "jobs.tailed" (tailedPayload "m1" "u1")
        (some "0") = some st'' ∧
      jdictLookup st''.mongo_id_mapping (Json.str "J") = some (Json.str "m1") ∧
      jdictLookup st''.job_url_mapping (Json.str "J") = some (Json.str "u1")) :=
  ⟨(c6_amended_latest_recording_roundtrip loads0 stVisible (Json.str "J")
      (Json.str "snap") JsonList.nil none JsonFields.nil "0" (Json.str "J") []).1
      (by decide),
   (c6_amended_latest_recording_roundtrip loads0 stBlind (Json.str "J")
      (Json.str "snap") JsonList.nil none
      (JsonFields.cons "id" (Json.str "J")
        (JsonFields.cons "_id" (Json.str "m1")
          (JsonFields.cons "urls" (Json.str "u1") JsonFields.nil)))
      "0" (Json.str "J") []).2.1 (by rfl) (by decide) (by rfl)⟩

end Arachnado
